import Mathlib

/-!
Verification of the sqlpro core (struct metadata extraction, placeholder
substitution and statement building) against its natural-language
specification.  The Go source (src/util.go, src/exec.go) is shallowly
embedded: Go maps become association lists (one admissible iteration
order), Go runtime values become the inductive `GoVal`, panics become
explicit result constructors, and the driver / dialect configuration
becomes an explicit `DB` record.
-/

set_option maxRecDepth 4000

/-- Go reflect kinds, restricted to the kinds the embedded code inspects.
`other` stands for any further kind (map, chan, ...), all of which the
source treats uniformly in its `default` branches. -/
inductive Kind where
  | ptr
  | str
  | int
  | int64
  | int32
  | uint
  | float64
  | bool
  | slice
  | array
  | struct'
  | other
  deriving DecidableEq, Repr

/-- Field metadata, translated from the `fieldInfo` struct of src/util.go. -/
structure fieldInfo where
  name : String
  dbName : String
  omitEmpty : Bool
  primaryKey : Bool
  null : Bool
  notNull : Bool
  emptyValue : String
  ptr : Bool
  deriving DecidableEq, Repr

/-- `allowNull` from src/util.go (lines 82-93): true if the field can
store SQL NULL. -/
def fieldInfo.allowNull (fi : fieldInfo) : Bool :=
  if fi.ptr then
    if fi.notNull then false else true
  else
    if fi.null then true else false

/-- `structInfo` from src/util.go is a Go map from db name to fieldInfo;
modelled as an association list (first match wins on lookup, matching one
admissible iteration order of the Go map). -/
abbrev structInfo : Type := List (String × fieldInfo)

/-- Map lookup on the association list, the counterpart of `si[db_name]`. -/
def lookupSI (si : structInfo) (k : String) : Option fieldInfo :=
  match si with
  | [] => none
  | (k', v) :: rest => if k' = k then some v else lookupSI rest k

/-- Map insertion `si[info.dbName] = &info`: replaces an existing binding
for the key, otherwise appends. -/
def mapInsert (si : structInfo) (k : String) (v : fieldInfo) : structInfo :=
  match si with
  | [] => [(k, v)]
  | (k', v') :: rest => if k' = k then (k, v) :: rest else (k', v') :: mapInsert rest k v

/-- `structInfo.onlyPrimaryKey` from src/util.go (lines 28-44): the unique
primary-key descriptor, or none when there are zero or several. -/
def onlyPrimaryKeyAux : List (String × fieldInfo) → Option fieldInfo → Option fieldInfo
  | [], acc => acc
  | (_, info) :: rest, acc =>
    if info.primaryKey then
      match acc with
      | some _ => none
      | none => onlyPrimaryKeyAux rest (some info)
    else
      onlyPrimaryKeyAux rest acc

def onlyPrimaryKey (si : structInfo) : Option fieldInfo :=
  onlyPrimaryKeyAux si none

/-- One declared Go struct field as the extractor sees it: its identifier,
its `db` tag (already fetched via `field.Tag.Get`, "" when absent), its
reflect kind, and whether it is unexported (`PkgPath != ""`). -/
structure GoField where
  name : String
  dbTag : String
  kind : Kind
  unexported : Bool
  deriving DecidableEq, Repr

/-- `strings.Split(s, ",")`, written as structural recursion over the
rune list so that the kernel can evaluate it. -/
def splitCommaAux : List Char → List Char → List String
  | [], cur => [String.mk cur.reverse]
  | c :: cs, cur =>
    if c = ',' then String.mk cur.reverse :: splitCommaAux cs []
    else splitCommaAux cs (c :: cur)

def goSplitComma (s : String) : List String := splitCommaAux s.toList []

/-- The kind switch of src/util.go lines 127-137 choosing the default
`emptyValue`: Ptr, String and Int have explicit cases, everything else
falls to the `default` branch. -/
def defaultEmptyValue (k : Kind) : String :=
  match k with
  | Kind.ptr => "null"
  | Kind.str => "\x27\x27"
  | Kind.int => "0"
  | _ => "\x27\x27"

/-- The modifier loop of src/util.go lines 143-159, applied to the tag
components after the leading db name; unrecognized tokens are ignored. -/
def applyModifiers (info : fieldInfo) : List String → fieldInfo
  | [] => info
  | p :: ps =>
    let info2 :=
      if p = "pk" then { info with primaryKey := true }
      else if p = "omitempty" then { info with omitEmpty := true }
      else if p = "null" then { info with null := true }
      else if p = "notnull" then { info with notNull := true }
      else info
    applyModifiers info2 ps

/-- src/util.go lines 116-159 for one tagged, exported, non-excluded
field: initial descriptor, kind switch, empty-db-name default, modifier
loop. -/
def buildInfo (f : GoField) (path : List String) : fieldInfo :=
  let info0 : fieldInfo :=
    { name := f.name, dbName := path.headD "", omitEmpty := false, primaryKey := false,
      null := false, notNull := false, emptyValue := "", ptr := false }
  let info1 := { info0 with ptr := f.kind = Kind.ptr, emptyValue := defaultEmptyValue f.kind }
  let info2 := if info1.dbName = "" then { info1 with dbName := f.name } else info1
  applyModifiers info2 (path.drop 1)

/-- The post-hoc correction of src/util.go lines 161-163. -/
def fixEmptyValue (i : fieldInfo) : fieldInfo :=
  if i.allowNull && i.emptyValue == "null" then { i with emptyValue := "\x27\x27" } else i

/-- Outcome of processing one struct field inside `getStructInfo`:
the field is skipped, the whole extraction panics, or a descriptor is
produced. -/
inductive FieldRes where
  | skip
  | panicNote (msg : String)
  | info (fi : fieldInfo)
  deriving DecidableEq, Repr

/-- The body of the field loop of `getStructInfo` (src/util.go lines
100-165), for a single field. -/
def processField (f : GoField) : FieldRes :=
  if f.dbTag = "" then FieldRes.skip
  else if f.unexported then
    FieldRes.panicNote ("getStructInfo: Unable to use unexported field for sqlpro: " ++ f.name)
  else if (goSplitComma f.dbTag).headD "" = "-" then FieldRes.skip
  else FieldRes.info (fixEmptyValue (buildInfo f (goSplitComma f.dbTag)))

/-- `getStructInfo` from src/util.go (lines 96-168); the unexported-field
panic surfaces as `Except.error`. -/
def getStructInfoAux : List GoField → structInfo → Except String structInfo
  | [], si => Except.ok si
  | f :: fs, si =>
    match processField f with
    | FieldRes.skip => getStructInfoAux fs si
    | FieldRes.panicNote m => Except.error m
    | FieldRes.info i => getStructInfoAux fs (mapInsert si i.dbName i)

def getStructInfo (fields : List GoField) : Except String structInfo :=
  getStructInfoAux fields []

/-! Helper lemmas about the extractor. -/

theorem fixEmptyValue_allowNull (i : fieldInfo) :
    (fixEmptyValue i).allowNull = true → (fixEmptyValue i).emptyValue ≠ "null" := by
  unfold fixEmptyValue
  split
  · intro _ h
    exact (by decide : ("\x27\x27" : String) ≠ "null") h
  · rename_i hcond
    intro hAllow hEq
    exact hcond (by rw [Bool.and_eq_true]; exact ⟨hAllow, beq_iff_eq.mpr hEq⟩)

/-- Every descriptor emitted by `processField` satisfies: if it allows
NULL then its emptyValue is not the literal "null" (this is exactly what
the post-hoc correction at src/util.go lines 161-163 enforces). -/
theorem processField_allowNull_emptyValue (f : GoField) (i : fieldInfo)
    (h : processField f = FieldRes.info i) :
    i.allowNull = true → i.emptyValue ≠ "null" := by
  unfold processField at h
  split at h
  · exact absurd h (by simp)
  · split at h
    · exact absurd h (by simp)
    · split at h
      · exact absurd h (by simp)
      · simp only [FieldRes.info.injEq] at h
        subst h
        exact fixEmptyValue_allowNull _

theorem mapInsert_forall {P : fieldInfo → Prop} :
    ∀ (si : structInfo) (k : String) (v : fieldInfo),
      (∀ kv ∈ si, P kv.2) → P v → ∀ kv ∈ mapInsert si k v, P kv.2
  | [], k, v, _, hv, kv, hm => by
      simp only [mapInsert, List.mem_singleton] at hm
      subst hm; exact hv
  | (k', v') :: rest, k, v, hall, hv, kv, hm => by
      simp only [mapInsert] at hm
      by_cases hk : k' = k
      · rw [if_pos hk] at hm
        rcases List.mem_cons.mp hm with h1 | h2
        · subst h1; exact hv
        · exact hall kv (List.mem_cons_of_mem _ h2)
      · rw [if_neg hk] at hm
        rcases List.mem_cons.mp hm with h1 | h2
        · subst h1; exact hall (k', v') (List.mem_cons_self _ _)
        · exact mapInsert_forall rest k v (fun x hx => hall x (List.mem_cons_of_mem _ hx)) hv kv h2

theorem getStructInfoAux_forall {P : fieldInfo → Prop}
    (hP : ∀ f i, processField f = FieldRes.info i → P i) :
    ∀ (fields : List GoField) (si0 si : structInfo),
      (∀ kv ∈ si0, P kv.2) → getStructInfoAux fields si0 = Except.ok si →
      ∀ kv ∈ si, P kv.2
  | [], si0, si, h0, heq, kv, hm => by
      simp only [getStructInfoAux, Except.ok.injEq] at heq
      subst heq; exact h0 kv hm
  | f :: fs, si0, si, h0, heq, kv, hm => by
      simp only [getStructInfoAux] at heq
      cases hpf : processField f with
      | skip =>
          rw [hpf] at heq
          exact getStructInfoAux_forall hP fs si0 si h0 heq kv hm
      | panicNote m =>
          rw [hpf] at heq
          exact absurd heq (by simp)
      | info i =>
          rw [hpf] at heq
          exact getStructInfoAux_forall hP fs (mapInsert si0 i.dbName i) si
            (mapInsert_forall si0 i.dbName i h0 (hP f i hpf)) heq kv hm

/-- A pointer field tagged `notnull`: the claim C1 predicts emptyValue
different from "null", the code leaves "null" in place. -/
def fPtrNotNull : GoField := { name := "P", dbTag := "p,notnull", kind := Kind.ptr, unexported := false }

/-- The descriptor the extractor actually produces for `fPtrNotNull`. -/
def fiPtrNotNull : fieldInfo :=
  { name := "P", dbName := "p", omitEmpty := false, primaryKey := false,
    null := false, notNull := true, emptyValue := "null", ptr := true }

/-- A plain (nullable) pointer field, for the C1 witness. -/
def fPtrPlain : GoField := { name := "Q", dbTag := "q", kind := Kind.ptr, unexported := false }

/-- The descriptor the extractor produces for `fPtrPlain`: the correction
rewrote "null" to two quotes because the field allows NULL. -/
def fiPtrPlain : fieldInfo :=
  { name := "Q", dbName := "q", omitEmpty := false, primaryKey := false,
    null := false, notNull := false, emptyValue := "\x27\x27", ptr := true }

/-- C1 counterexample: the correction at src/util.go lines 161-163 fires
when `allowNull()` is TRUE, not false.  For a pointer field tagged
`notnull` (so `allowNull() = false`) the extracted descriptor keeps
`emptyValue = "null"`, contradicting the claim that every descriptor with
`allowNull() = false` has emptyValue different from "null". -/
theorem c1_counterexample :
    getStructInfo [fPtrNotNull] = Except.ok [("p", fiPtrNotNull)] ∧
    fiPtrNotNull.allowNull = false ∧
    fiPtrNotNull.emptyValue = "null" := by
  refine ⟨?_, rfl, rfl⟩
  rfl

/-- C1 (amended): the post-hoc correction fires when the nullability
policy PERMITS null: for every struct type, every extracted field
descriptor with `allowNull() = true` has `emptyValue` different from
"null" (a default emptyLiteral of "null" on such a field is corrected to
two single quotes). -/
theorem c1_amended (fields : List GoField) (si : structInfo)
    (h : getStructInfo fields = Except.ok si) :
    ∀ kv ∈ si, kv.2.allowNull = true → kv.2.emptyValue ≠ "null" := by
  intro kv hm
  exact getStructInfoAux_forall
    (P := fun i => i.allowNull = true → i.emptyValue ≠ "null")
    processField_allowNull_emptyValue fields [] si (by intro x hx; cases hx) h kv hm

/-- C1 witness: concrete instantiation of `c1_amended` on a plain pointer
field. -/
theorem c1_witness :
    getStructInfo [fPtrPlain] = Except.ok [("q", fiPtrPlain)] ∧
    fiPtrPlain.allowNull = true ∧
    fiPtrPlain.emptyValue ≠ "null" := by
  refine ⟨rfl, rfl, ?_⟩
  exact c1_amended [fPtrPlain] [("q", fiPtrPlain)] rfl ("q", fiPtrPlain)
    (List.mem_singleton.mpr rfl) rfl

/-- An `int64` field with a plain tag, refuting C8's "numeric kinds get
the default 0". -/
def fInt64 : GoField := { name := "N", dbTag := "n", kind := Kind.int64, unexported := false }

/-- The descriptor the extractor produces for `fInt64`. -/
def fiInt64 : fieldInfo :=
  { name := "N", dbName := "n", omitEmpty := false, primaryKey := false,
    null := false, notNull := false, emptyValue := "\x27\x27", ptr := false }

/-- C8 counterexample: the kind switch of src/util.go lines 127-137 gives
the default emptyLiteral "0" only to reflect.Int; other numeric kinds
(int64, int32, uint, float64) fall into the default branch and get two
single quotes.  An int64 field therefore contradicts the claim that every
numeric kind gets "0" (the post-hoc correction only rewrites "null", so
the final value shown here equals the pre-correction default). -/
theorem c8_counterexample :
    defaultEmptyValue Kind.int64 = "\x27\x27" ∧
    defaultEmptyValue Kind.float64 ≠ "0" ∧
    getStructInfo [fInt64] = Except.ok [("n", fiInt64)] := by
  refine ⟨rfl, ?_, rfl⟩
  decide

/-- C8 (amended): the extractor's default emptyLiteral before the
post-hoc correction is: "null" for pointer kinds, "0" for the kind `int`
only, and two single quotes for every other kind (including the other
numeric kinds int64, int32, uint and float64). -/
theorem c8_amended (k : Kind) :
    defaultEmptyValue k =
      if k = Kind.ptr then "null" else if k = Kind.int then "0" else "\x27\x27" := by
  cases k <;> rfl

/-! ## Runtime values and the placeholder substitution engine -/

/-- Go runtime values as `replaceArgs` and the statement builders inspect
them.  The universe is restricted to the shapes the embedded code
distinguishes: plain ints (not a driver value), int64/bool/string/nil/byte
slices (driver values), string pointers, general slices (with the
pointer-ness of the element type, which is all `replaceArgs` reads from
it) and arrays.  Nested sequence values are treated as non-zero by
`isZero` (we do not model nil slices inside other values). -/
inductive GoVal where
  | vint (n : Int)
  | vint64 (n : Int)
  | vbool (b : Bool)
  | vstr (s : String)
  | vptrStr (s : Option String)
  | vnil
  | vbytes (bs : List Nat)
  | vslice (elemPtr : Bool) (es : List GoVal)
  | varray (elemPtr : Bool) (es : List GoVal)

/-- `isZero` from src/util.go lines 410-412: deep equality with the
type's zero value.  A nil `*string` is zero, a non-nil one is not (a
pointer deep-equals nil only when nil). -/
def isZero : GoVal → Bool
  | GoVal.vint n => n == 0
  | GoVal.vint64 n => n == 0
  | GoVal.vbool b => b == false
  | GoVal.vstr s => s == ""
  | GoVal.vptrStr s => s.isNone
  | GoVal.vnil => true
  | GoVal.vbytes _ => false
  | GoVal.vslice _ _ => false
  | GoVal.varray _ _ => false

/-- `driver.IsValue`: nil, bool, []byte, int64, float64, string and
time.Time are driver values; plain int, *string, other slices and arrays
are not. -/
def driverIsValue : GoVal → Bool
  | GoVal.vnil => true
  | GoVal.vbool _ => true
  | GoVal.vint64 _ => true
  | GoVal.vstr _ => true
  | GoVal.vbytes _ => true
  | _ => false

/-- Schematic Go type name as printed by the %T verb in the type error of
`replaceArgs` (for sequence values the real code prints the concrete
element type; the message text is debug output only). -/
def goTypeName : GoVal → String
  | GoVal.vint _ => "int"
  | GoVal.vint64 _ => "int64"
  | GoVal.vbool _ => "bool"
  | GoVal.vstr _ => "string"
  | GoVal.vptrStr _ => "*string"
  | GoVal.vnil => "<nil>"
  | GoVal.vbytes _ => "[]uint8"
  | GoVal.vslice _ _ => "[]T"
  | GoVal.varray _ _ => "[N]T"

inductive PlaceholderModeT where
  | QUESTION
  | DOLLAR
  deriving DecidableEq, Repr

/-- Dialect configuration consumed by the substitution engine.  Modelled
from the spec: the `DB` struct itself (sqlpro.go) is not under src/; the
engine reads exactly the two sigil runes, the placeholder mode and the
identifier escaper from it (spec section 6, Dialect configuration). -/
structure DB where
  PlaceholderKey : Char
  PlaceholderValue : Char
  PlaceholderMode : PlaceholderModeT
  Esc : String → String

/-- `appendPlaceholder` from src/util.go lines 275-283, returning the
string it would append: a bare mark in QUESTION mode, the mark plus the
1-based parameter number in DOLLAR mode. -/
def placeholderStr (db : DB) (numArg : Nat) : String :=
  match db.PlaceholderMode with
  | PlaceholderModeT.QUESTION => "?"
  | PlaceholderModeT.DOLLAR => "$" ++ toString numArg

/-- `escValue` from src/util.go lines 286-299 (the one-result variant the
substitution engine uses).  `none` models the panic on a zero value of a
non-nullable pointer field. -/
def escValue (value : GoVal) (fi : fieldInfo) : Option GoVal :=
  if isZero value then
    if fi.allowNull then some GoVal.vnil
    else if fi.ptr then none
    else some value
  else some value

/-- The synthetic descriptor `&fieldInfo{ptr: ...}` built at src/util.go
line 245 for slice expansion: every other attribute is Go's zero value. -/
def syntheticFi (elemPtr : Bool) : fieldInfo :=
  { name := "", dbName := "", omitEmpty := false, primaryKey := false,
    null := false, notNull := false, emptyValue := "", ptr := elemPtr }

/-- The per-element loop of the slice expansion (src/util.go lines
246-253): a comma before every element but the first, then the escaped
element is appended to the output parameters and one placeholder mark
(numbered by the new parameter count) is emitted.  `none` propagates the
escValue panic. -/
def expandSliceAux (db : DB) (fi : fieldInfo) : List GoVal → List GoVal → Bool → Option (String × List GoVal)
  | [], acc, _ => some ("", acc)
  | v :: vs, acc, first =>
    match escValue v fi with
    | none => none
    | some ev =>
      let acc2 := acc ++ [ev]
      let piece := (if first then "" else ",") ++ placeholderStr db acc2.length
      match expandSliceAux db fi vs acc2 false with
      | none => none
      | some (s, acc3) => some (piece ++ s, acc3)

/-- Result of `replaceArgs` / `updateClauseFromRow`: the (sql, args, err)
triple of the Go functions, plus an explicit panic outcome.  Error
returns in the source always carry the empty sql string and the argument
slice the source returns alongside the error. -/
inductive GoRes where
  | ok (sql : String) (args : List GoVal)
  | err (sql : String) (args : List GoVal) (msg : String)
  | panicked

/-- Outcome of consuming one argument at an (undoubled) sigil. -/
inductive StepRes where
  | cont (nth : Nat) (newArgs : List GoVal) (out : String)
  | fail (r : GoRes)

/-- The lookahead rune: 0 at the end of the template (src/util.go lines
192-196). -/
def nextChar : List Char → Char
  | [] => Char.ofNat 0
  | d :: _ => d

/-- src/util.go lines 212-261: consuming one argument at a sigil that is
not doubled.  The reflect tests of line 240 (`IsValid`, kind Slice, not a
driver value) are compiled into the match on `arg`: in the `GoVal`
universe the values passing all three are exactly the `vslice`
constructor (`vnil` is invalid and a driver value, `vbytes` is a driver
value, `varray` has kind Array). -/
def sigilArgStep (db : DB) (c : Char) (arg : GoVal) (nth : Nat) (newArgs : List GoVal) (out : String) : StepRes :=
  if c = db.PlaceholderKey then
      match arg with
      | GoVal.vstr s => StepRes.cont (nth + 1) newArgs (out ++ db.Esc s)
      | GoVal.vptrStr (some s) => StepRes.cont (nth + 1) newArgs (out ++ db.Esc s)
      | GoVal.vptrStr none => StepRes.fail GoRes.panicked
      | _ => StepRes.fail (GoRes.err "" []
          ("replaceArgs: Unable to replace " ++ String.singleton c ++ " with type " ++
            goTypeName arg ++ ", need *string or string."))
    else
      if driverIsValue arg then
        let na := newArgs ++ [arg]
        StepRes.cont (nth + 1) na (out ++ placeholderStr db na.length)
      else
        match arg with
        | GoVal.vslice ep es =>
          if es.length = 0 then
            StepRes.fail (GoRes.err "" [] "replaceArgs: Unable to merge empty slice.")
          else
            match expandSliceAux db (syntheticFi ep) es newArgs true with
            | none => StepRes.fail GoRes.panicked
            | some (chunk, na) => StepRes.cont (nth + 1) na (out ++ "(" ++ chunk ++ ")")
        | _ =>
          let na := newArgs ++ [arg]
          StepRes.cont (nth + 1) na (out ++ placeholderStr db na.length)

/-- src/util.go lines 212-217 around `sigilArgStep`: running out of
arguments is an error naming the expected ordinal and the number
supplied; otherwise the next argument is fetched and consumed. -/
def sigilStep (db : DB) (c : Char) (args : List GoVal) (nth : Nat) (newArgs : List GoVal) (out : String) : StepRes :=
  if args.length ≤ nth then
    StepRes.fail (GoRes.err "" []
      ("replaceArgs: Expecting #" ++ toString (nth + 1) ++ " arg. Got: " ++ toString args.length ++ " args."))
  else
    sigilArgStep db c (args.getD nth GoVal.vnil) nth newArgs out

/-- The scanning loop of `replaceArgs` (src/util.go lines 189-270) over
the remaining runes, carrying the running argument index, output
parameters and output text; the final [] case appends the unconsumed
arguments (lines 264-267).  In the doubled-sigil branch the source writes
the current rune once and skips the lookahead rune; when the template
ends right after the sigil (lookahead rune 0, only relevant when a sigil
is configured as the 0 character) the loop simply terminates, which is
inlined below. -/
def replaceArgsAux (db : DB) : List Char → List GoVal → Nat → List GoVal → String → GoRes
  | [], args, nth, newArgs, out => GoRes.ok out (newArgs ++ args.drop nth)
  | c :: cs, args, nth, newArgs, out =>
    if c ≠ db.PlaceholderKey ∧ c ≠ db.PlaceholderValue then
      replaceArgsAux db cs args nth newArgs (out.push c)
    else if (c = db.PlaceholderValue ∧ nextChar cs = db.PlaceholderValue) ∨
            (c = db.PlaceholderKey ∧ nextChar cs = db.PlaceholderKey) then
      match cs with
      | [] => GoRes.ok (out.push c) (newArgs ++ args.drop nth)
      | _ :: rest => replaceArgsAux db rest args nth newArgs (out.push c)
    else
      match sigilStep db c args nth newArgs out with
      | StepRes.fail r => r
      | StepRes.cont nth2 na2 out2 => replaceArgsAux db cs args nth2 na2 out2

def replaceArgs (db : DB) (sqlS : String) (args : List GoVal) : GoRes :=
  replaceArgsAux db sqlS.toList args 0 [] ""

/-- A concrete QUESTION-mode dialect (value sigil the question mark, key
sigil the at sign, identity escaper) used for witnesses. -/
def dbQ : DB :=
  { PlaceholderKey := '@', PlaceholderValue := '?',
    PlaceholderMode := PlaceholderModeT.QUESTION, Esc := fun s => s }

/-! String helper lemmas. -/

theorem append_mk_nil (s : String) : s ++ String.mk [] = s := by
  cases s with
  | mk d =>
      show String.mk (d ++ []) = String.mk d
      rw [List.append_nil]

theorem push_mk (s : String) (c : Char) (cs : List Char) :
    (s.push c) ++ String.mk cs = s ++ String.mk (c :: cs) := by
  cases s with
  | mk d =>
      show String.mk (d ++ [c] ++ cs) = String.mk (d ++ (c :: cs))
      rw [List.append_assoc]
      rfl

theorem str_assoc (a b c : String) : (a ++ b) ++ c = a ++ (b ++ c) := by
  cases a with
  | mk x =>
    cases b with
    | mk y =>
      cases c with
      | mk z =>
        show String.mk (x ++ y ++ z) = String.mk (x ++ (y ++ z))
        rw [List.append_assoc]

/-- Unfolding equation for the copy branch (src/util.go lines 198-201):
a rune that is neither sigil is appended verbatim. -/
theorem replaceArgsAux_cons_copy (db : DB) (c : Char) (cs : List Char)
    (args newArgs : List GoVal) (nth : Nat) (out : String)
    (hc : c ≠ db.PlaceholderKey ∧ c ≠ db.PlaceholderValue) :
    replaceArgsAux db (c :: cs) args nth newArgs out =
      replaceArgsAux db cs args nth newArgs (out.push c) := by
  cases cs with
  | nil => simp only [replaceArgsAux]; rw [if_pos hc]
  | cons d tail => simp only [replaceArgsAux]; rw [if_pos hc]

/-- Unfolding equation for an undoubled sigil: the scan consumes one
argument through `sigilStep` and continues (or stops on failure). -/
theorem replaceArgsAux_cons_sigil (db : DB) (c : Char) (cs : List Char)
    (args newArgs : List GoVal) (nth : Nat) (out : String)
    (h1 : ¬(c ≠ db.PlaceholderKey ∧ c ≠ db.PlaceholderValue))
    (h2 : ¬((c = db.PlaceholderValue ∧ nextChar cs = db.PlaceholderValue) ∨
            (c = db.PlaceholderKey ∧ nextChar cs = db.PlaceholderKey))) :
    replaceArgsAux db (c :: cs) args nth newArgs out =
      match sigilStep db c args nth newArgs out with
      | StepRes.fail r => r
      | StepRes.cont nth2 na2 out2 => replaceArgsAux db cs args nth2 na2 out2 := by
  cases cs with
  | nil => simp only [replaceArgsAux]; rw [if_neg h1, if_neg h2]
  | cons d tail => simp only [replaceArgsAux]; rw [if_neg h1, if_neg h2]

/-- C7: a doubled sigil (key or value) emits exactly one literal
occurrence of that character into the output SQL and consumes no
argument: the scan continues past both runes with the argument index and
output parameter list unchanged and the output text extended by the one
character (src/util.go lines 203-208). -/
theorem c7_doubled_sigil (db : DB) (c : Char) (cs : List Char)
    (args newArgs : List GoVal) (nth : Nat) (out : String)
    (h : c = db.PlaceholderKey ∨ c = db.PlaceholderValue) :
    replaceArgsAux db (c :: c :: cs) args nth newArgs out =
      replaceArgsAux db cs args nth newArgs (out.push c) := by
  have h1 : ¬(c ≠ db.PlaceholderKey ∧ c ≠ db.PlaceholderValue) := by
    rcases h with h | h
    · exact fun hc => hc.1 h
    · exact fun hc => hc.2 h
  have h2 : (c = db.PlaceholderValue ∧ nextChar (c :: cs) = db.PlaceholderValue) ∨
      (c = db.PlaceholderKey ∧ nextChar (c :: cs) = db.PlaceholderKey) := by
    rcases h with h | h
    · exact Or.inr ⟨h, h⟩
    · exact Or.inl ⟨h, h⟩
  simp only [replaceArgsAux]
  rw [if_neg h1, if_pos h2]

/-- C7 witness: a doubled value sigil in the QUESTION dialect. -/
theorem c7_witness :
    replaceArgsAux dbQ ('?' :: '?' :: []) [] 0 [] "x" =
      replaceArgsAux dbQ [] [] 0 [] ("x".push '?') :=
  c7_doubled_sigil dbQ '?' [] [] [] 0 "x" (Or.inr rfl)

theorem replaceArgsAux_no_sigils (db : DB) (cs : List Char) :
    ∀ (args newArgs : List GoVal) (nth : Nat) (out : String),
      (∀ c ∈ cs, c ≠ db.PlaceholderKey ∧ c ≠ db.PlaceholderValue) →
      replaceArgsAux db cs args nth newArgs out =
        GoRes.ok (out ++ String.mk cs) (newArgs ++ args.drop nth) := by
  induction cs with
  | nil =>
      intro args newArgs nth out _
      rw [append_mk_nil]
      rfl
  | cons c cs ih =>
      intro args newArgs nth out h
      have hc := h c (List.mem_cons_self c cs)
      rw [replaceArgsAux_cons_copy db c cs args newArgs nth out hc,
        ih args newArgs nth (out.push c) (fun x hx => h x (List.mem_cons_of_mem c hx)),
        push_mk]

/-- C10: a template containing neither sigil is returned unchanged, with
the output parameter list equal to the input argument list and no error
(src/util.go lines 189-201 copy every rune, lines 264-267 pass the
arguments through). -/
theorem c10_no_sigils_identity (db : DB) (s : String) (args : List GoVal)
    (h : ∀ c ∈ s.toList, c ≠ db.PlaceholderKey ∧ c ≠ db.PlaceholderValue) :
    replaceArgs db s args = GoRes.ok s args := by
  unfold replaceArgs
  rw [replaceArgsAux_no_sigils db s.toList args [] 0 "" h]
  rfl

/-- C10 witness: a sigil-free SELECT with one trailing argument. -/
theorem c10_witness :
    replaceArgs dbQ "SELECT 1" [GoVal.vint 5] = GoRes.ok "SELECT 1" [GoVal.vint 5] :=
  c10_no_sigils_identity dbQ "SELECT 1" [GoVal.vint 5] (by decide)

/-- C6-specific step evaluation: at a value sigil whose pending argument
is an empty slice (which is not a driver value), the step fails with the
empty-slice error of src/util.go lines 241-243, returning the empty sql
string and nil argument list. -/
theorem sigilStep_empty_slice (db : DB) (args newArgs : List GoVal)
    (nth : Nat) (out : String) (ep : Bool)
    (hkv : db.PlaceholderKey ≠ db.PlaceholderValue)
    (hlen : nth < args.length)
    (harg : args.getD nth GoVal.vnil = GoVal.vslice ep []) :
    sigilStep db db.PlaceholderValue args nth newArgs out =
      StepRes.fail (GoRes.err "" [] "replaceArgs: Unable to merge empty slice.") := by
  unfold sigilStep
  rw [if_neg (not_le.mpr hlen), harg]
  unfold sigilArgStep
  rw [if_neg (fun h => hkv h.symm)]
  rw [show driverIsValue (GoVal.vslice ep []) = false from rfl]
  simp only [Bool.false_eq_true, if_false]
  rfl

/-- C6: substituting an empty slice at an (undoubled) value sigil always
returns an error and produces no SQL output: whatever the surrounding
template, argument list and scanning state, the whole substitution stops
with the empty-slice error carrying the empty sql string. -/
theorem c6_empty_slice_err (db : DB) (cs : List Char) (args newArgs : List GoVal)
    (nth : Nat) (out : String) (ep : Bool)
    (hkv : db.PlaceholderKey ≠ db.PlaceholderValue)
    (hnext : nextChar cs ≠ db.PlaceholderValue)
    (hlen : nth < args.length)
    (harg : args.getD nth GoVal.vnil = GoVal.vslice ep []) :
    replaceArgsAux db (db.PlaceholderValue :: cs) args nth newArgs out =
      GoRes.err "" [] "replaceArgs: Unable to merge empty slice." := by
  have h1 : ¬(db.PlaceholderValue ≠ db.PlaceholderKey ∧ db.PlaceholderValue ≠ db.PlaceholderValue) :=
    fun hc => hc.2 rfl
  have h2 : ¬((db.PlaceholderValue = db.PlaceholderValue ∧ nextChar cs = db.PlaceholderValue) ∨
      (db.PlaceholderValue = db.PlaceholderKey ∧ nextChar cs = db.PlaceholderKey)) := by
    rintro (⟨_, hn⟩ | ⟨he, _⟩)
    · exact hnext hn
    · exact hkv he.symm
  rw [replaceArgsAux_cons_sigil db _ cs args newArgs nth out h1 h2,
    sigilStep_empty_slice db args newArgs nth out ep hkv hlen harg]

/-- C6 witness: the template is a lone value sigil, the argument an empty
int slice. -/
theorem c6_witness :
    replaceArgsAux dbQ ('?' :: []) [GoVal.vslice false []] 0 [] "" =
      GoRes.err "" [] "replaceArgs: Unable to merge empty slice." :=
  c6_empty_slice_err dbQ [] [GoVal.vslice false []] [] 0 "" false
    (by decide) (by decide) (by decide) rfl

/-! ## C5: slice expansion at a value sigil -/

/-- What `escValue` returns on the synthetic descriptor of the slice
expansion (permissive nullability, only pointer-ness set): a zero element
of pointer type becomes SQL NULL (nil), everything else passes through.
No element can make it panic, which `escValue_synthetic` proves. -/
def escSyn (ep : Bool) (v : GoVal) : GoVal :=
  if isZero v && ep then GoVal.vnil else v

theorem escValue_synthetic (ep : Bool) (v : GoVal) :
    escValue v (syntheticFi ep) = some (escSyn ep v) := by
  unfold escValue syntheticFi fieldInfo.allowNull escSyn
  cases hz : isZero v <;> cases ep <;> simp [hz]

/-- The placeholder marks emitted for `n` parameters appended after `k`
existing ones: the j-th new parameter carries the 1-based number k+j+1. -/
def markList (db : DB) (k n : Nat) : List String :=
  (List.range n).map (fun j => placeholderStr db (k + j + 1))

/-- Comma-separated join, making "separated by commas" explicit. -/
def joinComma : List String → String
  | [] => ""
  | [m] => m
  | m :: m2 :: ms => m ++ ("," ++ joinComma (m2 :: ms))

theorem markList_length (db : DB) (k n : Nat) : (markList db k n).length = n := by
  simp [markList]

theorem markList_succ (db : DB) (k n : Nat) :
    markList db k (n + 1) = placeholderStr db (k + 1) :: markList db (k + 1) n := by
  unfold markList
  rw [List.range_succ_eq_map, List.map_cons, List.map_map]
  refine List.cons_eq_cons.mpr ⟨rfl, ?_⟩
  apply List.map_congr_left
  intro a _
  show placeholderStr db (k + (a + 1) + 1) = placeholderStr db (k + 1 + a + 1)
  congr 1
  omega

theorem markList_one (db : DB) (k : Nat) :
    markList db k 1 = [placeholderStr db (k + 1)] := by
  rw [markList_succ]
  rfl

theorem empty_append_str (s : String) : "" ++ s = s := by
  cases s with
  | mk d => rfl

theorem append_empty_str (s : String) : s ++ "" = s :=
  append_mk_nil s

/-- One-step unfolding of the expansion loop. -/
theorem expandSliceAux_cons (db : DB) (fi : fieldInfo) (v : GoVal) (vs acc : List GoVal)
    (first : Bool) :
    expandSliceAux db fi (v :: vs) acc first =
      match escValue v fi with
      | none => none
      | some ev =>
        match expandSliceAux db fi vs (acc ++ [ev]) false with
        | none => none
        | some (s, acc3) =>
          some (((if first then "" else ",") ++ placeholderStr db ((acc ++ [ev]).length)) ++ s,
            acc3) := rfl

/-- One-step unfolding with the synthetic descriptor: the escValue of the
head element never panics. -/
theorem expandSliceAux_cons_syn (db : DB) (ep : Bool) (v : GoVal) (vs acc : List GoVal)
    (first : Bool) :
    expandSliceAux db (syntheticFi ep) (v :: vs) acc first =
      match expandSliceAux db (syntheticFi ep) vs (acc ++ [escSyn ep v]) false with
      | none => none
      | some (s, acc3) =>
        some (((if first then "" else ",") ++ placeholderStr db ((acc ++ [escSyn ep v]).length)) ++ s,
          acc3) := by
  rw [expandSliceAux_cons, escValue_synthetic]

theorem expandSliceAux_eq (db : DB) (ep : Bool) :
    ∀ (es : List GoVal) (acc : List GoVal) (first : Bool), es ≠ [] →
      expandSliceAux db (syntheticFi ep) es acc first =
        some ((if first then "" else ",") ++ joinComma (markList db acc.length es.length),
              acc ++ es.map (escSyn ep))
  | [], _, _, h => absurd rfl h
  | [v], acc, first, _ => by
      rw [expandSliceAux_cons_syn]
      simp only [expandSliceAux]
      rw [append_empty_str,
        show (acc ++ [escSyn ep v]).length = acc.length + 1 by simp,
        List.length_singleton, markList_one]
      rfl
  | v :: v2 :: vs, acc, first, _ => by
      rw [expandSliceAux_cons_syn,
        expandSliceAux_eq db ep (v2 :: vs) (acc ++ [escSyn ep v]) false (List.cons_ne_nil _ _)]
      dsimp only
      rw [show (acc ++ [escSyn ep v]).length = acc.length + 1 by simp]
      rw [show markList db acc.length (v :: v2 :: vs).length =
            placeholderStr db (acc.length + 1) :: markList db (acc.length + 1) (v2 :: vs).length from by
          rw [show (v :: v2 :: vs).length = (v2 :: vs).length + 1 from rfl, markList_succ]]
      rw [show markList db (acc.length + 1) (v2 :: vs).length =
            placeholderStr db (acc.length + 1 + 1) :: markList db (acc.length + 1 + 1) vs.length from by
          rw [show (v2 :: vs).length = vs.length + 1 from rfl, markList_succ]]
      simp only [joinComma, List.map_cons, List.append_assoc, List.singleton_append, str_assoc]
      rfl

/-- C5-specific step evaluation: at a value sigil whose pending argument
is a non-empty (non-driver-value) slice, the step emits an opening
parenthesis, the comma-joined placeholder marks and a closing
parenthesis, and appends one escaped element per slice member to the
output parameters (src/util.go lines 240-256). -/
theorem sigilStep_slice (db : DB) (args newArgs : List GoVal) (nth : Nat) (out : String)
    (ep : Bool) (es : List GoVal)
    (hkv : db.PlaceholderKey ≠ db.PlaceholderValue)
    (hlen : nth < args.length)
    (harg : args.getD nth GoVal.vnil = GoVal.vslice ep es)
    (hne : es ≠ []) :
    sigilStep db db.PlaceholderValue args nth newArgs out =
      StepRes.cont (nth + 1) (newArgs ++ es.map (escSyn ep))
        (out ++ "(" ++ joinComma (markList db newArgs.length es.length) ++ ")") := by
  unfold sigilStep
  rw [if_neg (not_le.mpr hlen), harg]
  unfold sigilArgStep
  rw [if_neg (fun h => hkv h.symm)]
  rw [show driverIsValue (GoVal.vslice ep es) = false from rfl]
  simp only [Bool.false_eq_true, if_false]
  rw [if_neg (fun h0 => hne (List.length_eq_zero.mp h0))]
  rw [expandSliceAux_eq db ep es newArgs true hne]
  rw [show ((if (true : Bool) then "" else ",") : String) = "" from rfl, empty_append_str]

/-- C5 (amended): whenever a non-empty SLICE of length N whose slice type
is not itself a driver value (so not a byte slice; arrays are NOT
expanded, see the counterexample) is consumed at an undoubled value
sigil, the output at that position is an opening parenthesis, exactly N
comma-separated placeholder marks (numbered consecutively after the
parameters already emitted) and a closing parenthesis, and exactly the N
elements, each classified by `escValue` under the synthetic
pointer-ness-only descriptor, are appended to the output parameter
list. -/
theorem c5_amended (db : DB) (cs : List Char) (args newArgs : List GoVal)
    (nth : Nat) (out : String) (ep : Bool) (es : List GoVal)
    (hkv : db.PlaceholderKey ≠ db.PlaceholderValue)
    (hnext : nextChar cs ≠ db.PlaceholderValue)
    (hlen : nth < args.length)
    (harg : args.getD nth GoVal.vnil = GoVal.vslice ep es)
    (hne : es ≠ []) :
    (markList db newArgs.length es.length).length = es.length ∧
    (∀ v ∈ es, escValue v (syntheticFi ep) = some (escSyn ep v)) ∧
    (newArgs ++ es.map (escSyn ep)).length = newArgs.length + es.length ∧
    replaceArgsAux db (db.PlaceholderValue :: cs) args nth newArgs out =
      replaceArgsAux db cs args (nth + 1) (newArgs ++ es.map (escSyn ep))
        (out ++ "(" ++ joinComma (markList db newArgs.length es.length) ++ ")") := by
  refine ⟨markList_length db newArgs.length es.length,
    fun v _ => escValue_synthetic ep v, by simp, ?_⟩
  have h1 : ¬(db.PlaceholderValue ≠ db.PlaceholderKey ∧ db.PlaceholderValue ≠ db.PlaceholderValue) :=
    fun hc => hc.2 rfl
  have h2 : ¬((db.PlaceholderValue = db.PlaceholderValue ∧ nextChar cs = db.PlaceholderValue) ∨
      (db.PlaceholderValue = db.PlaceholderKey ∧ nextChar cs = db.PlaceholderKey)) := by
    rintro (⟨_, hn⟩ | ⟨he, _⟩)
    · exact hnext hn
    · exact hkv he.symm
  rw [replaceArgsAux_cons_sigil db _ cs args newArgs nth out h1 h2,
    sigilStep_slice db args newArgs nth out ep es hkv hlen harg hne]

/-- C5 witness: a two-element int slice at a lone value sigil. -/
theorem c5_witness :
    (markList dbQ 0 2).length = 2 ∧
    (∀ v ∈ [GoVal.vint 1, GoVal.vint 2], escValue v (syntheticFi false) = some (escSyn false v)) ∧
    (([] : List GoVal) ++ [GoVal.vint 1, GoVal.vint 2].map (escSyn false)).length = 0 + 2 ∧
    replaceArgsAux dbQ ('?' :: []) [GoVal.vslice false [GoVal.vint 1, GoVal.vint 2]] 0 [] "x" =
      replaceArgsAux dbQ [] [GoVal.vslice false [GoVal.vint 1, GoVal.vint 2]] (0 + 1)
        (([] : List GoVal) ++ [GoVal.vint 1, GoVal.vint 2].map (escSyn false))
        ("x" ++ "(" ++ joinComma (markList dbQ 0 2) ++ ")") :=
  c5_amended dbQ [] [GoVal.vslice false [GoVal.vint 1, GoVal.vint 2]] [] 0 "x" false
    [GoVal.vint 1, GoVal.vint 2] (by decide) (by decide) (by decide) rfl
    (List.cons_ne_nil _ _)

/-- C5 counterexample: an ARRAY is not expanded.  A non-empty length-2
array consumed at a value sigil produces a single placeholder mark with
no parentheses and appends one parameter (the array itself), not two:
the reflect test at src/util.go line 240 only matches kind Slice. -/
theorem c5_counterexample :
    replaceArgs dbQ "?" [GoVal.varray false [GoVal.vint 1, GoVal.vint 2]] =
      GoRes.ok "?" [GoVal.varray false [GoVal.vint 1, GoVal.vint 2]] ∧
    ("?" : String).toList.count '(' = 0 :=
  ⟨rfl, rfl⟩

/-! ## UPDATE clause construction (src/exec.go lines 228-291) -/

/-- Modelled from the spec: exec.go calls a three-result
`escValue(value, fi) (string, interface, error)` whose definition is not
under src/ (src/util.go only carries a one-result variant).  Spec section
4.2 (Value Policy Engine): a zero value with NULL allowed becomes the
literal "null"; a zero value of a non-nullable pointer field is an
internal error; every other value passes through as a bound parameter
(empty literal, value as the driver argument). -/
def escValue3 (value : GoVal) (fi : fieldInfo) : Except String (String × GoVal) :=
  if isZero value then
    if fi.allowNull then Except.ok ("null", GoVal.vnil)
    else if fi.ptr then
      Except.error "escValue: zero value for a non-nullable pointer field"
    else Except.ok ("", value)
  else Except.ok ("", value)

/-- The column loop of `updateClauseFromRow` (src/exec.go lines 245-283)
plus the final validity check and concatenation (lines 285-290), over the
remaining (key, value) pairs of the row's value map, carrying the two
string builders, the argument list, the SET column count and the
`valid` flag.  `structInfo.primaryKey` panics when the key is missing
from the map (src/util.go lines 20-26).  A primary-key column writes
`Esc(key)=` and either the raw value sigil plus a driver argument or the
inline literal into the WHERE builder and sets `valid`; every other
column does the same into the SET builder with a comma separator after
the first. -/
def updateLoop (db : DB) (si : structInfo) :
    List (String × GoVal) → String → String → List GoVal → Nat → Bool → GoRes
  | [], update, whereB, args, _idx, valid =>
    if valid then GoRes.ok (update ++ whereB) args
    else GoRes.err "" args "Unable to build UPDATE clause, at least one key needed."
  | (key, value) :: rest, update, whereB, args, idx, valid =>
    match lookupSI si key with
    | none => GoRes.panicked
    | some fi =>
      if fi.primaryKey then
        match escValue3 value fi with
        | Except.error e => GoRes.err "" args e
        | Except.ok (escV, driverV) =>
          if escV = "null" then
            GoRes.err "" args ("Unable to build UPDATE clause with <nil> key: " ++ key)
          else
            if escV = "" then
              updateLoop db si rest update
                ((whereB ++ db.Esc key ++ "=").push db.PlaceholderValue)
                (args ++ [driverV]) idx true
            else
              updateLoop db si rest update (whereB ++ db.Esc key ++ "=" ++ escV) args idx true
      else
        match escValue3 value fi with
        | Except.error e => GoRes.err "" args e
        | Except.ok (escV, driverV) =>
          if escV = "" then
            updateLoop db si rest
              ((update ++ (if idx > 0 then "," else "") ++ db.Esc key ++ "=").push db.PlaceholderValue)
              whereB (args ++ [driverV]) (idx + 1) valid
          else
            updateLoop db si rest
              (update ++ (if idx > 0 then "," else "") ++ db.Esc key ++ "=" ++ escV)
              whereB args (idx + 1) valid

/-- `updateClauseFromRow` (src/exec.go lines 228-291) given the value map
and metadata that `valuesFromStruct(row)` produces for the record; the
association list fixes one admissible iteration order of the Go map. -/
def updateClauseFromRow (db : DB) (table : String) (values : List (String × GoVal))
    (si : structInfo) : GoRes :=
  updateLoop db si values ("UPDATE " ++ db.Esc table ++ " SET ") " WHERE " [] 0 false

/-- A primary-key int column descriptor. -/
def fiPkInt (nm dbn : String) : fieldInfo :=
  { name := nm, dbName := dbn, omitEmpty := false, primaryKey := true,
    null := false, notNull := false, emptyValue := "0", ptr := false }

/-- Metadata with two primary-key int columns a and b. -/
def siAB : structInfo := [("a", fiPkInt "A" "a"), ("b", fiPkInt "B" "b")]

def leadMatch : List Char → List Char → Bool
  | [], _ => true
  | _ :: _, [] => false
  | p :: ps, c :: cs => p == c && leadMatch ps cs

/-- Substring test on char lists (true iff pat occurs contiguously). -/
def containsChunk (s pat : List Char) : Bool :=
  match s with
  | [] => pat.isEmpty
  | c :: rest => leadMatch pat (c :: rest) || containsChunk rest pat

/-- C2: building an UPDATE clause from a record whose metadata marks the
two columns a and b as primary keys (values 1 and 2, neither NULL)
produces `UPDATE t SET  WHERE a=?b=?`: both columns are routed into the
WHERE clause as equality predicates, but the predicates are simply
concatenated — the output contains no AND joining them, contradicting
the claim (and confirming the defect the spec flags in section 9). -/
theorem c2_no_and_join :
    updateClauseFromRow dbQ "t" [("a", GoVal.vint 1), ("b", GoVal.vint 2)] siAB =
      GoRes.ok "UPDATE t SET  WHERE a=?b=?" [GoVal.vint 1, GoVal.vint 2] ∧
    containsChunk ("UPDATE t SET  WHERE a=?b=?").toList ['A', 'N', 'D'] = false :=
  ⟨rfl, rfl⟩

/-- True iff every column of the value map resolves in the metadata to a
non-primary-key descriptor. -/
def allNonPk (si : structInfo) (values : List (String × GoVal)) : Bool :=
  values.all (fun kv =>
    match lookupSI si kv.1 with
    | some fi => !fi.primaryKey
    | none => false)

theorem updateLoop_no_pk (db : DB) (si : structInfo) :
    ∀ (vs : List (String × GoVal)) (update whereB : String) (args : List GoVal) (idx : Nat),
      allNonPk si vs = true →
      ∃ a m, updateLoop db si vs update whereB args idx false = GoRes.err "" a m
  | [], _, _, args, _, _ =>
      ⟨args, "Unable to build UPDATE clause, at least one key needed.", rfl⟩
  | (key, value) :: rest, update, whereB, args, idx, hall => by
      have hhead : (match lookupSI si key with
          | some fi => !fi.primaryKey
          | none => false) = true :=
        List.all_eq_true.mp hall (key, value) (List.mem_cons_self _ _)
      have htail : allNonPk si rest = true := by
        apply List.all_eq_true.mpr
        intro kv hkv
        exact List.all_eq_true.mp hall kv (List.mem_cons_of_mem _ hkv)
      simp only [updateLoop]
      cases hlk : lookupSI si key with
      | none => rw [hlk] at hhead; exact absurd hhead (by simp)
      | some fi =>
          rw [hlk] at hhead
          have hpk : fi.primaryKey = false := by simpa using hhead
          dsimp only
          rw [if_neg (by simp [hpk])]
          cases hesc : escValue3 value fi with
          | error e => exact ⟨args, e, rfl⟩
          | ok p =>
              obtain ⟨escV, driverV⟩ := p
              dsimp only
              by_cases hE : escV = ""
              · subst hE
                rw [if_pos rfl]
                exact updateLoop_no_pk db si rest _ whereB (args ++ [driverV]) (idx + 1) htail
              · rw [if_neg hE]
                exact updateLoop_no_pk db si rest _ whereB args (idx + 1) htail

/-- C3 (amended): building an UPDATE clause from a record that
contributes zero primary-key columns (every consumed column resolves to
a non-primary-key descriptor) returns an error — either the
at-least-one-key error of src/exec.go line 286 or an escValue error —
and the returned SQL string is empty.  (Zero non-primary-key columns
alone is NOT an error: see the counterexample.) -/
theorem c3_amended (db : DB) (table : String) (values : List (String × GoVal))
    (si : structInfo) (h : allNonPk si values = true) :
    ∃ args msg, updateClauseFromRow db table values si = GoRes.err "" args msg := by
  unfold updateClauseFromRow
  exact updateLoop_no_pk db si values _ " WHERE " [] 0 h

/-- A non-primary-key int column descriptor. -/
def fiNonPkInt (nm dbn : String) : fieldInfo :=
  { name := nm, dbName := dbn, omitEmpty := false, primaryKey := false,
    null := false, notNull := false, emptyValue := "0", ptr := false }

/-- Metadata with the single non-primary-key column x. -/
def siX : structInfo := [("x", fiNonPkInt "X" "x")]

/-- C3 witness: one non-primary-key column, no primary key — an error
with empty SQL. -/
theorem c3_witness :
    ∃ args msg, updateClauseFromRow dbQ "t" [("x", GoVal.vint 1)] siX = GoRes.err "" args msg :=
  c3_amended dbQ "t" [("x", GoVal.vint 1)] siX rfl

/-- Metadata with the single primary-key column id. -/
def siId : structInfo := [("id", fiPkInt "ID" "id")]

/-- C3 counterexample: a record contributing ZERO non-primary-key
(settable) columns — its only column id is the primary key — does NOT
make `updateClauseFromRow` return an error: it happily returns
`UPDATE t SET  WHERE id=?` (an empty SET list).  The source only checks
that at least one primary-key column was seen (src/exec.go lines
285-287), refuting the first half of the claim. -/
theorem c3_counterexample :
    updateClauseFromRow dbQ "t" [("id", GoVal.vint 7)] siId =
      GoRes.ok "UPDATE t SET  WHERE id=?" [GoVal.vint 7] :=
  rfl

/-! ## Insert primary-key back-population (src/exec.go lines 69-106) -/

def fieldLookup (row : List (String × GoVal)) (nm : String) : Option GoVal :=
  match row with
  | [] => none
  | (k, v) :: rest => if k = nm then some v else fieldLookup rest nm

/-- `row.FieldByName(nm).SetInt(v)`: overwrite the named field. -/
def setField (row : List (String × GoVal)) (nm : String) (v : GoVal) : List (String × GoVal) :=
  row.map (fun kv => if kv.1 = nm then (kv.1, v) else kv)

/-- src/exec.go lines 88-91 and 98-101: after a successful `insertStruct`
returning `insertId`, Insert asks the metadata for its only primary key;
if there is exactly one, that field is overwritten with the insert id
(`row.FieldByName(pk.name).SetInt(insert_id)`), otherwise the row is left
alone.  `row` is the struct viewed as its field-name-to-value map. -/
def insertPkWriteBack (si : structInfo) (insertId : Int) (row : List (String × GoVal)) :
    List (String × GoVal) :=
  match onlyPrimaryKey si with
  | some pk => setField row pk.name (GoVal.vint insertId)
  | none => row

theorem fieldLookup_setField (row : List (String × GoVal)) (nm : String) (v : GoVal) :
    (fieldLookup row nm).isSome = true →
    fieldLookup (setField row nm v) nm = some v := by
  induction row with
  | nil =>
      intro h
      simp [fieldLookup] at h
  | cons kv rest ih =>
      intro h
      obtain ⟨k, w⟩ := kv
      simp only [fieldLookup] at h
      dsimp only [setField, List.map_cons]
      by_cases hk : k = nm
      · rw [if_pos hk]
        simp only [fieldLookup]
        rw [if_pos hk]
      · rw [if_neg hk]
        simp only [fieldLookup]
        rw [if_neg hk]
        rw [if_neg hk] at h
        exact ih h

/-- C4 (amended): whenever the metadata has exactly one primary-key
descriptor, Insert writes the driver-returned last-insert id into that
field after a successful Exec UNCONDITIONALLY — the field ends up equal
to the insert id regardless of its previous value; there is no
was-it-zero check in src/exec.go lines 88-91 / 98-101. -/
theorem c4_amended (si : structInfo) (insertId : Int) (row : List (String × GoVal))
    (pk : fieldInfo) (hpk : onlyPrimaryKey si = some pk)
    (hmem : (fieldLookup row pk.name).isSome = true) :
    fieldLookup (insertPkWriteBack si insertId row) pk.name = some (GoVal.vint insertId) := by
  unfold insertPkWriteBack
  rw [hpk]
  exact fieldLookup_setField row pk.name (GoVal.vint insertId) hmem

/-- C4 witness: a zero primary key is back-populated with the insert
id. -/
theorem c4_witness :
    fieldLookup (insertPkWriteBack siId 99 [("ID", GoVal.vint 0)]) "ID" =
      some (GoVal.vint 99) :=
  c4_amended siId 99 [("ID", GoVal.vint 0)] (fiPkInt "ID" "id") rfl rfl

/-- C4 counterexample: a record whose sole primary-key field was NON-zero
(7) before Insert does not keep its value — the field is overwritten with
the driver-returned id 99, refuting the claim that the write-back happens
only when the field was zero. -/
theorem c4_counterexample :
    isZero (GoVal.vint 7) = false ∧
    insertPkWriteBack siId 99 [("ID", GoVal.vint 7)] = [("ID", GoVal.vint 99)] :=
  ⟨rfl, rfl⟩

/-! ## Shape check of Insert/Update/Save (src/exec.go lines 19-52) -/

/-- Go types as `checkData` inspects them through reflect. -/
inductive GoType where
  | tstruct
  | tptr (t : GoType)
  | tslice (t : GoType)
  | tint
  | tstring
  deriving DecidableEq, Repr

/-- `checkData` from src/exec.go lines 19-52: `reflect.Indirect` yields
the pointee (addressable) for a pointer argument and the value itself
(NOT addressable) otherwise; a slice is accepted when its element type is
struct or pointer-to-struct; a struct is accepted only when addressable;
everything else is the slice-of-structs error.  Returns the indirected
type and the structMode flag. -/
def checkData (t : GoType) : Except String (GoType × Bool) :=
  let rv := match t with | GoType.tptr t2 => t2 | _ => t
  let canAddr := match t with | GoType.tptr _ => true | _ => false
  match rv with
  | GoType.tslice elem =>
    match elem with
    | GoType.tptr e2 =>
      match e2 with
      | GoType.tstruct => Except.ok (rv, false)
      | _ => Except.error "Insert/Update needs a slice of structs."
    | GoType.tstruct => Except.ok (rv, false)
    | _ => Except.error "Insert/Update needs a slice of structs."
  | GoType.tstruct =>
    if canAddr then Except.ok (rv, true)
    else Except.error "Insert/Update needs a slice of structs."
  | _ => Except.error "Insert/Update needs a slice of structs."

/-- C9: the shape check accepts the five pointer/slice shapes, but a
single record passed BY VALUE (a bare struct) is rejected with the
slice-of-structs error, because after `reflect.Indirect` a non-pointer
argument is not addressable (src/exec.go lines 42-45) — contradicting
both the claim and the doc comment of Insert (src/exec.go lines 56-63)
which lists plain `struct` as accepted. -/
theorem c9_checkData_eval :
    checkData (GoType.tptr (GoType.tslice (GoType.tptr GoType.tstruct))) =
      Except.ok (GoType.tslice (GoType.tptr GoType.tstruct), false) ∧
    checkData (GoType.tptr (GoType.tslice GoType.tstruct)) =
      Except.ok (GoType.tslice GoType.tstruct, false) ∧
    checkData (GoType.tslice (GoType.tptr GoType.tstruct)) =
      Except.ok (GoType.tslice (GoType.tptr GoType.tstruct), false) ∧
    checkData (GoType.tslice GoType.tstruct) =
      Except.ok (GoType.tslice GoType.tstruct, false) ∧
    checkData (GoType.tptr GoType.tstruct) = Except.ok (GoType.tstruct, true) ∧
    checkData GoType.tstruct = Except.error "Insert/Update needs a slice of structs." :=
  ⟨rfl, rfl, rfl, rfl, rfl, rfl⟩
